import Mathlib

/-!
Verification development for the `react-ts-react-router-dynamic-routes`
repository: a list/detail movie browser built on nested client-side routing
with parameterized URLs.

The repository's own code (`App.tsx`, `MoviesPage.tsx`, `MoviesList.tsx`,
`MovieShow.tsx`) is embedded directly.  The route-matching engine itself
lives in the third-party routing library and has no implementation in the
repository, so it is modelled from the specification's description of the
Route Matcher (segment-by-segment matching, literal vs. parameter segments,
exact-match queries, nesting, silent failure).
-/

/-- A current path, represented as its list of non-empty segments:
the URL `/movies/7` is `["movies", "7"]` and the root URL `/` is `[]`. -/
abbrev UrlPath := List String

/-- Modelled from the spec: a route-pattern segment is either a literal
string or a named parameter (written `:name` in pattern definitions). -/
inductive Segment where
  | lit : String → Segment
  | param : String → Segment
  deriving DecidableEq

/-- Modelled from the spec: a route pattern is an ordered sequence of
path segments. -/
abbrev Pattern := List Segment

/-- An extracted parameter map: parameter name paired with the substring
matched at that position. -/
abbrev Params := List (String × String)

/-- Modelled from the spec: left-to-right, segment-by-segment matching of a
pattern against a leading portion of a path.  A literal segment matches only
an identical literal; a parameter segment matches any single non-empty path
segment and binds it to its name.  Returns the extracted parameters and the
unconsumed remainder of the path, or `none` when some segment fails. -/
def consumeSegs : Pattern → UrlPath → Option (Params × UrlPath)
  | [], rest => some ([], rest)
  | _ :: _, [] => none
  | Segment.lit l :: ps, s :: ss =>
    if l = s then consumeSegs ps ss else none
  | Segment.param n :: ps, s :: ss =>
    if s = "" then none
    else Option.map (fun pr => ((n, s) :: pr.1, pr.2)) (consumeSegs ps ss)

/-- Modelled from the spec: an exact-match query, which succeeds only when
the full path is consumed with no remaining nested path, yielding the
extracted parameter map. -/
def matchPattern (pat : Pattern) (path : UrlPath) : Option Params :=
  match consumeSegs pat path with
  | none => none
  | some (ps, []) => some ps
  | some (_, _ :: _) => none

/-- Matching a run of literal segments against the identical literals just
consumes them, extracting nothing. -/
theorem consumeSegs_lits_append (lits : List String) (tailPat : Pattern)
    (tailPath : UrlPath) :
    consumeSegs (lits.map Segment.lit ++ tailPat) (lits ++ tailPath) =
      consumeSegs tailPat tailPath := by
  induction lits with
  | nil => rfl
  | cons s ss ih => simp [consumeSegs, ih]

/-- A successful partial match is stable under extending the path: the extra
segments just end up in the remainder. -/
theorem consumeSegs_extend (pat : Pattern) :
    ∀ (pa : UrlPath) (ps : Params) (rest : UrlPath),
      consumeSegs pat pa = some (ps, rest) →
      ∀ extra : UrlPath, consumeSegs pat (pa ++ extra) = some (ps, rest ++ extra) := by
  induction pat with
  | nil =>
    intro pa ps rest h extra
    simp [consumeSegs] at h
    simp [consumeSegs, h.1, h.2]
  | cons seg ps' ih =>
    intro pa ps rest h extra
    cases seg with
    | lit l =>
      cases pa with
      | nil => simp [consumeSegs] at h
      | cons s ss =>
        by_cases hls : l = s
        · simp only [consumeSegs, if_pos hls] at h
          simpa [consumeSegs, if_pos hls] using ih ss ps rest h extra
        · simp [consumeSegs, if_neg hls] at h
    | param n =>
      cases pa with
      | nil => simp [consumeSegs] at h
      | cons s ss =>
        by_cases hs : s = ""
        · simp [consumeSegs, if_pos hs] at h
        · cases hq : consumeSegs ps' ss with
          | none => simp [consumeSegs, if_neg hs, hq] at h
          | some qr =>
            obtain ⟨qs, qrest⟩ := qr
            simp only [consumeSegs, if_neg hs, hq, Option.map_some',
              Option.some.injEq, Prod.mk.injEq] at h
            obtain ⟨hps, hrest⟩ := h
            subst hps
            subst hrest
            have hih := ih ss qs qrest hq extra
            simp [consumeSegs, if_neg hs, List.append_eq, hih]

/-- Matching a concatenated pattern decomposes into matching the first
pattern and then the second on the remainder, concatenating the bindings. -/
theorem consumeSegs_append (p₁ p₂ : Pattern) :
    ∀ path : UrlPath,
      consumeSegs (p₁ ++ p₂) path =
        match consumeSegs p₁ path with
        | none => none
        | some (ps, rest) =>
          Option.map (fun qr => (ps ++ qr.1, qr.2)) (consumeSegs p₂ rest) := by
  induction p₁ with
  | nil =>
    intro path
    simp only [List.nil_append, consumeSegs]
    cases h : consumeSegs p₂ path with
    | none => rfl
    | some pr => rfl
  | cons seg ps' ih =>
    intro path
    cases seg with
    | lit l =>
      cases path with
      | nil => rfl
      | cons s ss =>
        by_cases hls : l = s
        · simp only [List.cons_append, consumeSegs, if_pos hls,
            List.append_eq, ih ss]
        · simp [consumeSegs, if_neg hls]
    | param n =>
      cases path with
      | nil => rfl
      | cons s ss =>
        by_cases hs : s = ""
        · simp [consumeSegs, if_pos hs]
        · simp only [List.cons_append, consumeSegs, if_neg hs,
            List.append_eq, ih ss]
          cases h : consumeSegs ps' ss with
          | none => rfl
          | some pr =>
            cases h2 : consumeSegs p₂ pr.2 with
            | none => simp [h2]
            | some qr => simp [h2]

/-- Exact matching of a purely static pattern succeeds exactly on the path
equal to its list of literals, with an empty parameter map. -/
theorem matchPattern_static (lits : List String) :
    ∀ (path : UrlPath) (ps : Params),
      matchPattern (lits.map Segment.lit) path = some ps ↔
        (path = lits ∧ ps = []) := by
  induction lits with
  | nil =>
    intro path ps
    cases path with
    | nil => simp [matchPattern, consumeSegs]
    | cons s ss => simp [matchPattern, consumeSegs]
  | cons l ls ih =>
    intro path ps
    cases path with
    | nil => simp [matchPattern, consumeSegs]
    | cons s ss =>
      by_cases hls : l = s
      · subst hls
        simpa [matchPattern, consumeSegs] using ih ss ps
      · simp [matchPattern, consumeSegs, if_neg hls]
        intro h
        exact absurd h.symm hls

/-- A movie record, from `src/types.ts` as used throughout the components:
an `id` (a TypeScript `number`) and a `title`. -/
structure Movie where
  id : Int
  title : String
  deriving DecidableEq

/-- The movie collection held in `App`'s state (`src/components/App.tsx`),
an object keyed by id, listed here as its values in ascending key order:
ids 1, 2, 3 with titles "A River Runs Through It", "Se7en", "Inception". -/
def appMovies : List Movie :=
  [{ id := 1, title := "A River Runs Through It" },
   { id := 2, title := "Se7en" },
   { id := 3, title := "Inception" }]

/-- Value of a run of decimal digits. -/
def digitsToNat (ds : List Char) : Nat :=
  ds.foldl (fun acc c => 10 * acc + (c.toNat - '0'.toNat)) 0

/-- The whitespace characters JavaScript `parseInt` skips at the start of
its input: ECMAScript WhiteSpace and LineTerminator code points. -/
def jsWhitespaceChars : List Char :=
  [' ', '\t', '\n', '\r', '\x0B', '\x0C', '\u00A0', '\u1680',
   '\u2000', '\u2001', '\u2002', '\u2003', '\u2004', '\u2005', '\u2006',
   '\u2007', '\u2008', '\u2009', '\u200A', '\u2028', '\u2029', '\u202F',
   '\u205F', '\u3000', '\uFEFF']

/-- Whether `parseInt` skips this character as leading whitespace. -/
def jsWhitespace (c : Char) : Bool :=
  jsWhitespaceChars.contains c

/-- Whether a character is a hexadecimal digit (`0`-`9`, `a`-`f`, `A`-`F`). -/
def isHexDigitChar (c : Char) : Bool :=
  c.isDigit || ('a' ≤ c && c ≤ 'f') || ('A' ≤ c && c ≤ 'F')

/-- Value of a hexadecimal digit. -/
def hexDigitVal (c : Char) : Nat :=
  if c.isDigit then c.toNat - '0'.toNat
  else if 'a' ≤ c && c ≤ 'f' then c.toNat - 'a'.toNat + 10
  else c.toNat - 'A'.toNat + 10

/-- Value of a run of hexadecimal digits. -/
def hexDigitsToNat (ds : List Char) : Nat :=
  ds.foldl (fun acc c => 16 * acc + hexDigitVal c) 0

/-- The magnitude `parseInt` reads after whitespace and an optional sign:
with the default radix, a `0x`/`0X` prefix switches to hexadecimal and the
longest run of hex digits after it is taken (`none` when that run is
empty); otherwise the longest leading run of decimal digits is taken
(`none` when there is none). -/
def parseUnsigned : List Char → Option Nat
  | c0 :: c1 :: rest =>
    if c0 = '0' ∧ (c1 = 'x' ∨ c1 = 'X') then
      let ds := rest.takeWhile isHexDigitChar
      if ds = [] then none else some (hexDigitsToNat ds)
    else
      let ds := (c0 :: c1 :: rest).takeWhile Char.isDigit
      if ds = [] then none else some (digitsToNat ds)
  | cs =>
    let ds := cs.takeWhile Char.isDigit
    if ds = [] then none else some (digitsToNat ds)

/-- JavaScript `parseInt` on a character list: skip leading whitespace,
read an optional sign, then read the magnitude (hexadecimal after a
`0x`/`0X` prefix, decimal otherwise).  `none` stands for `NaN`. -/
def parseIntChars (cs : List Char) : Option Int :=
  match cs.dropWhile jsWhitespace with
  | [] => none
  | c :: rest =>
    if c = '-' then Option.map (fun n => -(n : Int)) (parseUnsigned rest)
    else if c = '+' then Option.map (fun n => (n : Int)) (parseUnsigned rest)
    else Option.map (fun n => (n : Int)) (parseUnsigned (c :: rest))

/-- JavaScript `parseInt(s)` with the default radix, as called in
`MovieShow.tsx` on `params.movieId!`, returning `none` for `NaN`. -/
def parseInt (s : String) : Option Int :=
  parseIntChars s.data

/-- A decimal digit is not `parseInt` whitespace. -/
theorem digit_not_jsWhitespace (c : Char) (h : c.isDigit = true) :
    jsWhitespace c = false := by
  by_contra hw
  rw [Bool.not_eq_false] at hw
  have hm : c ∈ jsWhitespaceChars := by
    simpa [jsWhitespace] using hw
  fin_cases hm <;> exact absurd h (by decide)

/-- JavaScript strict equality `a === b` between a number and the result of
`parseInt`: `NaN` (here `none`) compares unequal to every number. -/
def jsEqNum (a : Int) (b : Option Int) : Bool :=
  match b with
  | some n => a == n
  | none => false

/-- The lookup in `MovieShow.tsx`:
`movies.find((movie) => movie.id === parseInt(params.movieId!))`.
`find` returns the first matching element, or `undefined` (here `none`). -/
def foundMovie (movies : List Movie) (movieId : String) : Option Movie :=
  movies.find? fun movie => jsEqNum movie.id (parseInt movieId)

/-- The outcome of rendering `MovieShow`'s JSX `<h3>{foundMovie!.title}</h3>`:
either the heading with the found movie's title, or the runtime type error
reached when `foundMovie` is `undefined` and `.title` is dereferenced
through the non-null assertion. -/
inductive ShowResult where
  | ok : String → ShowResult
  | typeError : ShowResult
  deriving DecidableEq

/-- `MovieShow` (`src/components/MovieShow.tsx`), as a function of its
`movies` prop and the `movieId` URL parameter delivered by `useParams`. -/
def MovieShow (movies : List Movie) (movieId : String) : ShowResult :=
  match foundMovie movies movieId with
  | some movie => ShowResult.ok movie.title
  | none => ShowResult.typeError

/-- `MoviesList` (`src/components/MoviesList.tsx`): one `<Link>` per movie,
listed as (link target, link text) pairs; the target is the relative path
interpolated from the movie's id, `` to={`${movie.id}`} ``. -/
def MoviesList (movies : List Movie) : List (String × String) :=
  movies.map fun movie => (toString movie.id, movie.title)

/-- Rendered route content: a route's own content with either an empty
outlet (`leaf`) or the content a matched descendant put into the outlet
(`node`). -/
inductive Rendered where
  | leaf : String → Rendered
  | node : String → Rendered → Rendered
  deriving DecidableEq

/-- The region `MoviesPage` renders after the list: either the default
heading text or whatever the `<Outlet />` receives. -/
inductive AfterList where
  | heading : String → AfterList
  | outlet : Option Rendered → AfterList
  deriving DecidableEq

/-- Modelled from the spec: the `useMatch` hook, an exact-match query of the
current path against a pattern, truthy exactly when the match succeeds. -/
def useMatch (pat : Pattern) (path : UrlPath) : Bool :=
  (matchPattern pat path).isSome

/-- `MoviesPage` (`src/components/MoviesPage.tsx`): always renders
`MoviesList`, then `match ? <h3>Choose a movie from the above list</h3>
: <Outlet />` where `match = useMatch("/movies")` against the current
path. -/
def MoviesPage (movies : List Movie) (path : UrlPath)
    (outletContent : Option Rendered) : List (String × String) × AfterList :=
  (MoviesList movies,
   if useMatch [Segment.lit "movies"] path then
     AfterList.heading "Choose a movie from the above list"
   else AfterList.outlet outletContent)

/-- Modelled from the spec: a tree of registered patterns. Each node carries
its (relative) pattern, a label for the content it renders, and its nested
child routes. -/
inductive RouteTree where
  | mk : Pattern → String → List RouteTree → RouteTree

/-- The pattern a route registers. -/
def RouteTree.pat : RouteTree → Pattern
  | RouteTree.mk p _ _ => p

/-- The content label a route renders. -/
def RouteTree.label : RouteTree → String
  | RouteTree.mk _ l _ => l

/-- The nested child routes. -/
def RouteTree.children : RouteTree → List RouteTree
  | RouteTree.mk _ _ c => c

/-- True when a pattern has no parameter segments. -/
def patternIsStatic (p : Pattern) : Bool :=
  p.all fun seg =>
    match seg with
    | Segment.lit _ => true
    | Segment.param _ => false

mutual
/-- Modelled from the spec: rendering one branch of the route tree against
the current path. The branch's pattern must consume a leading portion of
the path; if nothing remains the branch renders its own content with an
empty outlet, otherwise some nested child must consume the remainder, whose
content fills the outlet.  An unmatched branch renders nothing (`none`),
never an error. -/
def renderTree : RouteTree → UrlPath → Option Rendered
  | RouteTree.mk pat label children, path =>
    match consumeSegs pat path with
    | none => none
    | some (_, []) => some (Rendered.leaf label)
    | some (_, s :: rest) =>
      Option.map (Rendered.node label) (renderForest children (s :: rest))

/-- Modelled from the spec: rendering a list of sibling routes — the first
branch that matches renders; if none matches, nothing is rendered. -/
def renderForest : List RouteTree → UrlPath → Option Rendered
  | [], _ => none
  | t :: ts, path =>
    match renderTree t path with
    | some r => some r
    | none => renderForest ts path
end

mutual
/-- Modelled from the spec: the parameter map extracted by matching the
current path against one branch of the route tree, accumulating bindings
along the matching chain of nested patterns. -/
def matchTree : RouteTree → UrlPath → Option Params
  | RouteTree.mk pat _ children, path =>
    match consumeSegs pat path with
    | none => none
    | some (ps, []) => some ps
    | some (ps, s :: rest) =>
      Option.map (fun qs => ps ++ qs) (matchForest children (s :: rest))

/-- Modelled from the spec: parameter extraction over sibling routes, from
the first branch that matches. -/
def matchForest : List RouteTree → UrlPath → Option Params
  | [], _ => none
  | t :: ts, path =>
    match matchTree t path with
    | some ps => some ps
    | none => matchForest ts path
end

/-- Whether a rendered tree contains content with the given label. -/
def mentionsLabel : Rendered → String → Bool
  | Rendered.leaf l, target => l == target
  | Rendered.node l sub, target => l == target || mentionsLabel sub target

/-- The route registration shipped in `App` (`src/components/App.tsx`):
exactly two sibling routes, the static `path="/movies"` rendering
`MoviesPage` and the static `path="/"` rendering the Home div.  No
`:movieId` (or any other) child route is nested under either. -/
def appRoutes : List RouteTree :=
  [RouteTree.mk [Segment.lit "movies"] "MoviesPage" [],
   RouteTree.mk [] "Home" []]

/-- Splitting a path string into its non-empty segments. -/
def splitSegsAux : List Char → List Char → UrlPath
  | [], acc => if acc = [] then [] else [String.mk acc.reverse]
  | c :: cs, acc =>
    if c = '/' then
      if acc = [] then splitSegsAux cs []
      else String.mk acc.reverse :: splitSegsAux cs []
    else splitSegsAux cs (c :: acc)

/-- Splitting a path string such as `/movies/7` into `["movies", "7"]`. -/
def splitPath (s : String) : UrlPath :=
  splitSegsAux s.data []

/-- Modelled from the spec: resolution of a `Link` target.  A target with a
leading `/` is treated as an exact path; without it the target is relative
and the parent route's path is used as a prefix. -/
def resolveLink (parent : UrlPath) (target : String) : UrlPath :=
  match target.data with
  | '/' :: _ => splitPath target
  | _ => parent ++ splitPath target

/-- Claim C1: for every pattern with exactly one parameter segment and every path
obtained by substituting a non-empty literal for the parameter (all static
segments identical), the exact match succeeds and binds the parameter's name
to the substituted literal; and the pattern `/movies/:movieId` does not
match the path `/movies`, which omits the parameter segment. -/
theorem claim_C1_one_param_match (pre post : List String) (nm v : String)
    (hv : v ≠ "") :
    matchPattern (pre.map Segment.lit ++ Segment.param nm :: post.map Segment.lit)
        (pre ++ v :: post) = some [(nm, v)] ∧
      matchPattern [Segment.lit "movies", Segment.param "movieId"] ["movies"] =
        none := by
  constructor
  · have h1 := consumeSegs_lits_append pre
      (Segment.param nm :: post.map Segment.lit) (v :: post)
    have h2 : consumeSegs (post.map Segment.lit) post = some ([], []) := by
      simpa using consumeSegs_lits_append post [] []
    unfold matchPattern
    rw [h1]
    simp [consumeSegs, if_neg hv, h2]
  · rfl

/-- Witness for C1 at the spec's example: `/movies/:movieId` against
`/movies/7` yields `{movieId: "7"}`, and against `/movies` fails. -/
theorem claim_C1_witness :
    matchPattern [Segment.lit "movies", Segment.param "movieId"] ["movies", "7"]
        = some [("movieId", "7")] ∧
      matchPattern [Segment.lit "movies", Segment.param "movieId"] ["movies"] =
        none :=
  claim_C1_one_param_match ["movies"] [] "movieId" "7" (by decide)

/-- Claim C2: for the App movie collection (ids 1, 2, 3) and path `/movies/99`,
the detail lookup yields `none` ("not found") rather than a valid movie —
the lookup itself raises no error — and the component leaves that case
unhandled, so its render dereferences the absent value. -/
theorem claim_C2_not_found_unhandled :
    foundMovie appMovies "99" = none ∧
      MovieShow appMovies "99" = ShowResult.typeError :=
  ⟨by decide, by decide⟩

/-- Claim C3: an exact match of a static pattern (no parameter segments) succeeds
exactly on the path equal to its literals, with an empty parameter map; in
particular `/movies` matches `/movies` with `{}` and does not match the
longer `/movies/7`. -/
theorem claim_C3_static_exact :
    (∀ (lits : List String) (path : UrlPath) (ps : Params),
        matchPattern (lits.map Segment.lit) path = some ps ↔
          (path = lits ∧ ps = [])) ∧
      matchPattern [Segment.lit "movies"] ["movies"] = some [] ∧
      matchPattern [Segment.lit "movies"] ["movies", "7"] = none :=
  ⟨matchPattern_static, rfl, rfl⟩

/-- Witness for C3: the static pattern `/movies` matched against the path
`/movies` succeeds with the empty parameter map. -/
theorem claim_C3_witness :
    matchPattern (["movies"].map Segment.lit) ["movies"] = some [] :=
  (claim_C3_static_exact.1 ["movies"] ["movies"] []).mpr ⟨rfl, rfl⟩

/-- Claim C5: with the App state movie collection (ids 1, 2, 3) and current path
`/movies/2`, the `:movieId` parameter extracted is `"2"` and the detail
lookup resolves to exactly the movie with id 2, titled "Se7en". -/
theorem claim_C5_detail_lookup :
    matchPattern [Segment.lit "movies", Segment.param "movieId"] ["movies", "2"]
        = some [("movieId", "2")] ∧
      foundMovie appMovies "2" = some { id := 2, title := "Se7en" } :=
  ⟨rfl, by decide⟩

/-- Claim C4: on every path in the `/movies` subtree, `MoviesPage` renders the
movies list first, and the region after it follows the exact-match query
against `/movies`: exactly `/movies` renders the default heading "Choose a
movie from the above list", while any longer path renders the outlet
content instead, the list staying visible in both cases. -/
theorem claim_C4_movies_page_regions (movies : List Movie) (rest : UrlPath)
    (outletContent : Option Rendered) :
    (MoviesPage movies ("movies" :: rest) outletContent).1 = MoviesList movies ∧
      (rest = [] →
        (MoviesPage movies ("movies" :: rest) outletContent).2 =
          AfterList.heading "Choose a movie from the above list") ∧
      (rest ≠ [] →
        (MoviesPage movies ("movies" :: rest) outletContent).2 =
          AfterList.outlet outletContent) := by
  refine ⟨rfl, ?_, ?_⟩
  · intro h
    subst h
    rfl
  · intro h
    cases rest with
    | nil => exact absurd rfl h
    | cons s ss => rfl

/-- Witness for C4: at `/movies` the default heading shows after the list,
and at `/movies/7` the outlet content shows instead. -/
theorem claim_C4_witness :
    (MoviesPage appMovies ["movies"] none).1 = MoviesList appMovies ∧
      (MoviesPage appMovies ["movies"] none).2 =
        AfterList.heading "Choose a movie from the above list" ∧
      (MoviesPage appMovies ["movies", "7"]
          (some (Rendered.leaf "MovieShow"))).2 =
        AfterList.outlet (some (Rendered.leaf "MovieShow")) :=
  ⟨(claim_C4_movies_page_regions appMovies [] none).1,
    (claim_C4_movies_page_regions appMovies [] none).2.1 rfl,
    (claim_C4_movies_page_regions appMovies ["7"]
      (some (Rendered.leaf "MovieShow"))).2.2 (by decide)⟩

/-- Claim C9: `MovieShow`'s render is well-defined exactly under the precondition
that some movie in the `movies` prop has id equal to `parseInt` of the
`movieId` parameter: under it the non-null assertions dereference a present
value and the render produces a title heading; for any input violating it
the `foundMovie!.title` access hits the absent value, reaching the error
branch. -/
theorem claim_C9_movieshow_precondition (movies : List Movie) (s : String) :
    ((∃ m, m ∈ movies ∧ jsEqNum m.id (parseInt s) = true) →
        ∃ t, MovieShow movies s = ShowResult.ok t) ∧
      ((∀ m, m ∈ movies → jsEqNum m.id (parseInt s) = false) →
        MovieShow movies s = ShowResult.typeError) := by
  constructor
  · intro h
    have hsome : (foundMovie movies s).isSome := by
      rw [foundMovie, List.find?_isSome]
      obtain ⟨m, hm, hp⟩ := h
      exact ⟨m, hm, hp⟩
    obtain ⟨m, hm⟩ := Option.isSome_iff_exists.mp hsome
    exact ⟨m.title, by simp [MovieShow, hm]⟩
  · intro h
    have hnone : foundMovie movies s = none := by
      rw [foundMovie, List.find?_eq_none]
      intro m hm
      simp [h m hm]
    simp [MovieShow, hnone]

/-- Witness for C9: the precondition holds for `"2"` on the App collection
and the render yields a title; it fails for `"99"` and the error branch is
reached. -/
theorem claim_C9_witness :
    (∃ t, MovieShow appMovies "2" = ShowResult.ok t) ∧
      MovieShow appMovies "99" = ShowResult.typeError :=
  ⟨(claim_C9_movieshow_precondition appMovies "2").1
      ⟨{ id := 2, title := "Se7en" }, by decide, by decide⟩,
    (claim_C9_movieshow_precondition appMovies "99").2 (by decide)⟩

/-- Counterexample refuting claim C10 as stated: with the default radix,
`parseInt` treats a leading `0x` as a hexadecimal prefix and skips leading
whitespace, so it does not parse the longest leading digit prefix of every
string.  At `"0x2"` the leading digit run is `['0']` with value 0, yet the
program parses 2; with a collection containing ids 0 and 2, the string
`"0x2"`, whose leading digits are the decimal representation of the
existing id 0, resolves to the id-2 movie instead; and `" 2"`, which has no
leading digit at all, still resolves to the id-2 movie of the App
collection. -/
theorem claim_C10_counterexample :
    parseInt "0x2" = some 2 ∧
      ("0x2").data.takeWhile Char.isDigit = ['0'] ∧
      digitsToNat (("0x2").data.takeWhile Char.isDigit) = 0 ∧
      foundMovie [{ id := 0, title := "Zero" }, { id := 2, title := "Se7en" }]
          "0x2" = some { id := 2, title := "Se7en" } ∧
      foundMovie appMovies " 2" = some { id := 2, title := "Se7en" } :=
  ⟨by decide, by decide, by decide, by decide, by decide⟩

/-- Claim C10 (amended): the detail lookup selects the first movie whose id
equals `parseInt` of the parameter string; `parseInt` (default radix) skips
leading whitespace, honors an optional sign and treats a leading `0x`/`0X`
prefix as hexadecimal; apart from that hex case, a string beginning with a
digit parses to the value of its longest leading digit run with the rest
ignored (so `"2abc"` resolves to the movie with id 2), and a string with no
parseable leading number is `NaN` and resolves to no movie. -/
theorem claim_C10_first_match_leading_digits :
    (∀ (c : Char) (cs : List Char), c.isDigit = true →
        (∀ x rest, cs = x :: rest → c = '0' → ¬(x = 'x' ∨ x = 'X')) →
        parseInt (String.mk (c :: cs)) =
          some ((digitsToNat ((c :: cs).takeWhile Char.isDigit) : Int))) ∧
      (∀ (movies : List Movie) (s : String),
        parseInt s = none → foundMovie movies s = none) ∧
      (∀ (s : String) (pre post : List Movie) (m : Movie),
        (∀ m2, m2 ∈ pre → jsEqNum m2.id (parseInt s) = false) →
        jsEqNum m.id (parseInt s) = true →
        foundMovie (pre ++ m :: post) s = some m) ∧
      foundMovie appMovies "2abc" = some { id := 2, title := "Se7en" } := by
  refine ⟨?_, ?_, ?_, by decide⟩
  · intro c cs hc hguard
    have hcm : c ≠ '-' := by
      intro h
      subst h
      exact absurd hc (by decide)
    have hcp : c ≠ '+' := by
      intro h
      subst h
      exact absurd hc (by decide)
    have hw : jsWhitespace c = false := digit_not_jsWhitespace c hc
    have hdrop : (c :: cs).dropWhile jsWhitespace = c :: cs := by
      simp [List.dropWhile_cons, hw]
    show parseIntChars (c :: cs) = _
    rw [parseIntChars, hdrop]
    simp only [if_neg hcm, if_neg hcp]
    cases cs with
    | nil =>
      have ht : [c].takeWhile Char.isDigit = [c] := by
        simp [List.takeWhile_cons, hc]
      simp [parseUnsigned, ht]
    | cons x rest =>
      have hg : ¬(c = '0' ∧ (x = 'x' ∨ x = 'X')) := by
        rintro ⟨h0, hx⟩
        exact hguard x rest rfl h0 hx
      have ht : (c :: x :: rest).takeWhile Char.isDigit =
          c :: ((x :: rest).takeWhile Char.isDigit) := by
        simp [List.takeWhile_cons, hc]
      simp [parseUnsigned, if_neg hg, ht]
  · intro movies s h
    rw [foundMovie, List.find?_eq_none]
    intro m hm
    simp [h, jsEqNum]
  · intro s pre post m hpre hm
    induction pre with
    | nil =>
      simp [foundMovie, List.find?_cons, hm]
    | cons u us ih =>
      have hu : jsEqNum u.id (parseInt s) = false := hpre u (by simp)
      have ih2 := ih fun m2 hm2 => hpre m2 (by simp [hm2])
      simp only [foundMovie] at ih2 ⊢
      simpa [List.find?_cons, hu] using ih2

/-- Witness for C10: `"2a"` (a digit lead, no hex prefix) parses to its
digit prefix, `"zz"` parses to `NaN` and finds nothing, and a one-element
list resolves `"2abc"` to its movie. -/
theorem claim_C10_witness :
    parseInt (String.mk ['2', 'a']) =
        some ((digitsToNat (['2', 'a'].takeWhile Char.isDigit) : Int)) ∧
      foundMovie appMovies "zz" = none ∧
      foundMovie ([] ++ { id := 2, title := "Se7en" } :: []) "2abc" =
        some { id := 2, title := "Se7en" } :=
  ⟨claim_C10_first_match_leading_digits.1 '2' ['a'] (by decide)
      (fun x rest hx h0 => absurd h0 (by decide)),
    claim_C10_first_match_leading_digits.2.1 appMovies "zz" (by decide),
    claim_C10_first_match_leading_digits.2.2.1 "2abc" [] []
      { id := 2, title := "Se7en" }
      (fun m2 hm2 => absurd hm2 (by simp)) (by decide)⟩

/-- Claim C6: a branch whose pattern does not match the current path renders
nothing — `none`, a value, not an exception — and removing or keeping such
a non-matching branch leaves the rendered output of the sibling branches
unchanged. -/
theorem claim_C6_unmatched_renders_nothing :
    (∀ (pat : Pattern) (lbl : String) (children : List RouteTree)
        (path : UrlPath),
        consumeSegs pat path = none →
          renderTree (RouteTree.mk pat lbl children) path = none) ∧
      (∀ (pre post : List RouteTree) (t : RouteTree) (path : UrlPath),
        renderTree t path = none →
          renderForest (pre ++ t :: post) path = renderForest (pre ++ post) path) := by
  constructor
  · intro pat lbl children path h
    simp [renderTree, h]
  · intro pre post t path h
    induction pre with
    | nil => simp [renderForest, h]
    | cons u us ih =>
      cases hu : renderTree u path with
      | none => simp [renderForest, hu, ih]
      | some r => simp [renderForest, hu]

/-- Witness for C6: an unmatched `/about` branch renders nothing at
`/movies` and does not disturb the App routes' output there. -/
theorem claim_C6_witness :
    renderForest
        (RouteTree.mk [Segment.lit "about"] "About" [] :: appRoutes)
        ["movies"] =
      renderForest appRoutes ["movies"] :=
  claim_C6_unmatched_renders_nothing.2 [] appRoutes
    (RouteTree.mk [Segment.lit "about"] "About" []) ["movies"]
    (by simp [renderTree, consumeSegs])

/-- Claim C7: a child pattern nested under a parent matches exactly the parent's
path concatenated with the child's own path, binding the parameters of
both; correspondingly each relative link target `MoviesList` generates from
a movie's id resolves under the parent `/movies` to `/movies/<id>`. -/
theorem claim_C7_nested_concat :
    (∀ (parent child : Pattern) (pa pb : UrlPath) (psa psb : Params),
        matchPattern parent pa = some psa →
        matchPattern child pb = some psb →
        matchPattern (parent ++ child) (pa ++ pb) = some (psa ++ psb)) ∧
      (∀ link, link ∈ MoviesList appMovies →
        resolveLink ["movies"] link.1 = ["movies", link.1]) := by
  constructor
  · intro parent child pa pb psa psb h1 h2
    have hc1 : consumeSegs parent pa = some (psa, []) := by
      cases hc : consumeSegs parent pa with
      | none => simp [matchPattern, hc] at h1
      | some pr =>
        obtain ⟨ps, rest⟩ := pr
        cases rest with
        | nil =>
          simp only [matchPattern, hc, Option.some.injEq] at h1
          rw [← h1]
        | cons s ss => simp [matchPattern, hc] at h1
    have hc2 : consumeSegs child pb = some (psb, []) := by
      cases hc : consumeSegs child pb with
      | none => simp [matchPattern, hc] at h2
      | some pr =>
        obtain ⟨ps, rest⟩ := pr
        cases rest with
        | nil =>
          simp only [matchPattern, hc, Option.some.injEq] at h2
          rw [← h2]
        | cons s ss => simp [matchPattern, hc] at h2
    have he : consumeSegs parent (pa ++ pb) = some (psa, pb) := by
      simpa using consumeSegs_extend parent pa psa [] hc1 pb
    have ha : consumeSegs (parent ++ child) (pa ++ pb) = some (psa ++ psb, []) := by
      rw [consumeSegs_append parent child (pa ++ pb), he]
      simp [hc2]
    simp [matchPattern, ha]
  · intro link hlink
    fin_cases hlink <;> rfl

/-- Witness for C7: `/movies` concatenated with `:movieId` matches
`/movies/2` binding `movieId` to `"2"`, and the relative link `"2"`
generated for the movie with id 2 resolves to `/movies/2`. -/
theorem claim_C7_witness :
    matchPattern ([Segment.lit "movies"] ++ [Segment.param "movieId"])
        (["movies"] ++ ["2"]) = some ([] ++ [("movieId", "2")]) ∧
      resolveLink ["movies"] ("2", "Se7en").1 = ["movies", ("2", "Se7en").1] :=
  ⟨claim_C7_nested_concat.1 [Segment.lit "movies"] [Segment.param "movieId"]
      ["movies"] ["2"] [] [("movieId", "2")] rfl rfl,
    claim_C7_nested_concat.2 ("2", "Se7en") (by decide)⟩

/-- Claim C8: the route registration shipped in `App` consists solely of the
static patterns `/movies` and `/` with no nested (hence no parameterized
`:movieId`) child; consequently matching the registered tree binds no
parameters for any current path, and no path ever renders the `MovieShow`
component through it. -/
theorem claim_C8_app_routes_static :
    appRoutes.map RouteTree.pat = [[Segment.lit "movies"], []] ∧
      (appRoutes.all fun t =>
        patternIsStatic t.pat && t.children.isEmpty) = true ∧
      (∀ (path : UrlPath) (ps : Params),
        matchForest appRoutes path = some ps → ps = []) ∧
      (∀ (path : UrlPath) (r : Rendered),
        renderForest appRoutes path = some r →
          mentionsLabel r "MovieShow" = false) := by
  refine ⟨rfl, rfl, ?_, ?_⟩
  · intro path ps h
    cases path with
    | nil =>
      simp [matchForest, matchTree, appRoutes, consumeSegs] at h
      simp [h.symm]
    | cons s ss =>
      by_cases hs : ("movies" : String) = s
      · subst hs
        cases ss with
        | nil =>
          simp [matchForest, matchTree, appRoutes, consumeSegs] at h
          simp [h.symm]
        | cons s2 ss2 =>
          simp [matchForest, matchTree, appRoutes, consumeSegs] at h
      · simp [matchForest, matchTree, appRoutes, consumeSegs, hs] at h
  · intro path r h
    cases path with
    | nil =>
      simp [renderForest, renderTree, appRoutes, consumeSegs] at h
      simp [← h, mentionsLabel]
    | cons s ss =>
      by_cases hs : ("movies" : String) = s
      · subst hs
        cases ss with
        | nil =>
          simp [renderForest, renderTree, appRoutes, consumeSegs] at h
          simp [← h, mentionsLabel]
        | cons s2 ss2 =>
          simp [renderForest, renderTree, appRoutes, consumeSegs] at h
      · simp [renderForest, renderTree, appRoutes, consumeSegs, hs] at h

/-- Witness for C8: at `/movies` the registered tree matches with no
parameter bindings and renders `MoviesPage`, whose output does not contain
`MovieShow`. -/
theorem claim_C8_witness :
    ([] : Params) = [] ∧
      mentionsLabel (Rendered.leaf "MoviesPage") "MovieShow" = false :=
  ⟨claim_C8_app_routes_static.2.2.1 ["movies"] []
      (by simp [matchForest, matchTree, appRoutes, consumeSegs]),
    claim_C8_app_routes_static.2.2.2 ["movies"] (Rendered.leaf "MoviesPage")
      (by simp [renderForest, renderTree, appRoutes, consumeSegs])⟩
